import Mathlib

/-!
# Verification of the ClauseGrid citation-resolution and anchor-gating layer

This file gives a shallow embedding, in Lean 4, of the Citation Resolver and
Anchor Plausibility Gate of the ClauseGrid frontend
(`frontend/components/document-viewers/common.ts`,
`frontend/components/document-viewers/PdfCitationViewer.tsx`, the markdown
fallback viewer) together with the confidence fuser documented in
`docs/HybridExtractionPipeline.md`, and proves or refutes the specification
claims about them.

Embedding conventions:
* JavaScript numbers are modelled as exact rationals (`ℚ`); every constant in
  the scored code (0.2, 0.3, 2.4, 0.55, 0.0001, ...) is an exact decimal, so
  order comparisons agree with the source on all inputs considered here.
* JavaScript strings are Lean `String`s; the regex-based helpers
  (`normalizeForMatch`, the ISO date pattern, fragment splitting) are
  implemented character by character over `String.toList`, matching the ASCII
  semantics of the regexes in the source.
* Optional / missing JS values (`undefined`, absent fields) are `Option`;
  JS truthiness tests on strings, numbers and arrays are spelled out at each
  use site exactly as the source tests them (`"" `falsy, `0` falsy, any
  array truthy).
-/

/-- ASCII whitespace, the character class the source's `\s` matches on the
inputs considered here (space, tab, LF, VT, FF, CR). -/
def isWsChar (c : Char) : Bool :=
  c == ' ' || c == '\t' || c == '\n' || c == '\x0b' || c == '\x0c' || c == '\r'

/-- The JS `\w` character class: `[A-Za-z0-9_]`. -/
def isWordChar (c : Char) : Bool :=
  ('a' ≤ c && c ≤ 'z') || ('A' ≤ c && c ≤ 'Z') || ('0' ≤ c && c ≤ '9') || c == '_'

/-- Collapse runs of adjacent spaces into one space (the effect of the
source's `.replace(/\s+/g, ' ')` once all whitespace has been mapped to
`' '`). -/
def squeezeSpaces : List Char → List Char
  | [] => []
  | [c] => [c]
  | a :: b :: rest =>
    if a == ' ' && b == ' ' then squeezeSpaces (b :: rest)
    else a :: squeezeSpaces (b :: rest)

/-- JS `String.prototype.trim`: drop whitespace from both ends. -/
def trimChars (l : List Char) : List Char :=
  ((l.dropWhile (fun c => isWsChar c)).reverse.dropWhile (fun c => isWsChar c)).reverse

/-- JS `String.prototype.trim` packaged on `String`. -/
def jsTrim (s : String) : String :=
  String.mk (trimChars s.toList)

/-- JS `split(' ')`: split on every single space character, keeping empty
chunks. -/
def splitOnSpace : List Char → List (List Char)
  | [] => [[]]
  | c :: rest =>
    if c == ' ' then [] :: splitOnSpace rest
    else match splitOnSpace rest with
      | [] => [[c]]
      | chunk :: chunks => (c :: chunk) :: chunks

/-- Split on each occurrence of `\n`, `.` or `;` — the separator class of the
source's `split(/[\n.;]+/)`.  The `+` in the regex only suppresses empty
chunks between adjacent separators; since the caller filters all short
chunks away afterwards, splitting on single separator characters is
equivalent there. -/
def splitSentenceSeps : List Char → List (List Char)
  | [] => [[]]
  | c :: rest =>
    if c == '\n' || c == '.' || c == ';' then [] :: splitSentenceSeps rest
    else match splitSentenceSeps rest with
      | [] => [[c]]
      | chunk :: chunks => (c :: chunk) :: chunks

/-- `needle` occurs at the head of `hay` (JS `startsWith`). -/
def startsWithChars : List Char → List Char → Bool
  | [], _ => true
  | _ :: _, [] => false
  | a :: as, b :: bs => a == b && startsWithChars as bs

/-- `hay.includes(needle)` on character lists. -/
def containsSubstr (needle : List Char) : List Char → Bool
  | [] => needle.isEmpty
  | c :: rest => startsWithChars needle (c :: rest) || containsSubstr needle rest

/-- JS `String.prototype.includes`. -/
def strIncludes (hay needle : String) : Bool :=
  containsSubstr needle.toList hay.toList

/-- Helper for `dedupFirst`: drop every element already in `seen`, keeping
first occurrences. -/
def dedupFirstAux (seen : List String) : List String → List String
  | [] => []
  | x :: xs =>
    if seen.contains x then dedupFirstAux seen xs
    else x :: dedupFirstAux (seen ++ [x]) xs

/-- Keep the first occurrence of every string, dropping later duplicates
(the behaviour of pushing into a JS array guarded by `includes`). -/
def dedupFirst (l : List String) : List String :=
  dedupFirstAux [] l

/-- `Number(...)` on a short digit string: decimal value. -/
def digitsToNat (s : String) : Nat :=
  s.toList.foldl (fun n c => 10 * n + (c.toNat - '0'.toNat)) 0

/-- A natural number as an exact rational, via `mkRat` so that it reduces
inside the kernel. -/
def natToRat (n : ℕ) : ℚ :=
  mkRat (Int.ofNat n) 1

/-! ## Data model (`frontend/types.ts`) -/

/-- `SourceCitation` from `frontend/types.ts`: a stable pointer from extracted
text back to a location in the rendered document.  Optional fields are
`Option`; `page`, `bbox` coordinates and char offsets are rationals. -/
structure SourceCitation where
  source : String
  snippet : String
  page : Option ℚ := none
  bbox : Option (List ℚ) := none
  selector : Option String := none
  start_char : Option ℚ := none
  end_char : Option ℚ := none
deriving DecidableEq, Repr

/-- `ArtifactBlock` from `frontend/types.ts`. -/
structure ArtifactBlock where
  id : String
  type : String
  text : String
  citations : List SourceCitation
deriving DecidableEq, Repr

/-- `ParsedArtifact` (the fields the resolver reads). -/
structure ParsedArtifact where
  doc_version_id : String
  format : String
  markdown : String
  blocks : List ArtifactBlock
deriving DecidableEq, Repr

/-- `DocumentFile` (the fields the resolver reads). -/
structure DocumentFile where
  id : String
  name : String
  artifact : Option ParsedArtifact := none
deriving DecidableEq, Repr

/-- `ExtractionCell` from `frontend/types.ts`.  `page` is `Option` because the
resolver guards every read with `typeof cell.page === 'number'`; `citations`
and `status` are optional in the interface. -/
structure ExtractionCell where
  value : String
  confidence : String
  quote : String
  page : Option ℚ := none
  reasoning : String
  citations : Option (List SourceCitation) := none
  status : Option String := none
deriving DecidableEq, Repr

/-- The rendered-page response consumed by `PdfCitationViewer`
(`RenderedPdfPage` in `PdfCitationViewer.tsx`), restricted to the fields the
anchor gate reads. -/
structure RenderedPdfPage where
  page_width : ℚ
  page_height : ℚ
  matched_bbox : Option (List ℚ) := none
  match_mode : Option String := none
  match_confidence : Option ℚ := none
  bbox_source : Option String := none
  warning_code : Option String := none
deriving DecidableEq, Repr

/-! ## `common.ts` — Citation Resolver -/

/-- `normalizeForMatch` (`common.ts`): lowercase, collapse whitespace runs to
one space, replace every character outside `[\w\s]` by a space, trim. -/
def normalizeForMatch (value : String) : String :=
  String.mk
    (trimChars
      (((squeezeSpaces
          ((value.toList.map Char.toLower).map (fun c => if isWsChar c then ' ' else c))).map
        (fun c => if isWordChar c || c == ' ' then c else ' '))))

/-- The token set used by `overlapScore`: normalize, split on spaces, drop
tokens of length ≤ 2, deduplicate (JS `new Set`, insertion order). -/
def tokensOf (s : String) : List String :=
  dedupFirst (((splitOnSpace (normalizeForMatch s).toList).map String.mk).filter
    (fun t => decide (2 < t.length)))

/-- `overlapScore` (`common.ts`): `|left ∩ right| / max |left| |right|` over
the two token sets, `0` when either is empty. -/
def overlapScore (left right : String) : ℚ :=
  let leftTokens := tokensOf left
  let rightTokens := tokensOf right
  if leftTokens.length = 0 ∨ rightTokens.length = 0 then 0
  else natToRat (leftTokens.filter (fun t => rightTokens.contains t)).length /
    natToRat (Nat.max leftTokens.length rightTokens.length)

/-- JS truthiness of `c.snippet || c.selector || c.page || c.bbox` in
`pickPrimaryCitation`: empty strings and a zero page are falsy, any present
bbox array is truthy. -/
def viableCitation (c : SourceCitation) : Bool :=
  c.snippet != "" ||
    (match c.selector with | some s => s != "" | none => false) ||
    (match c.page with | some p => decide (p ≠ 0) | none => false) ||
    c.bbox.isSome

/-- `scoreCitationAgainstCell` (`common.ts`): each conditional `score += …`
of the source becomes one guarded addend, in source order. -/
def scoreCitationAgainstCell (citation : SourceCitation) (cell : Option ExtractionCell) : ℚ :=
  match cell with
  | none => 0
  | some c =>
    let quoteProbe := jsTrim c.quote
    let valueProbe := jsTrim c.value
    let reasoningProbe := String.mk ((jsTrim c.reasoning).toList.take 280)
    let snippet := jsTrim citation.snippet
    let normSnippet := normalizeForMatch snippet
    let normQuote := normalizeForMatch quoteProbe
    let normValue := normalizeForMatch valueProbe
    (if snippet ≠ "" ∧ quoteProbe ≠ "" then 2.4 * overlapScore snippet quoteProbe else 0) +
    (if snippet ≠ "" ∧ quoteProbe ≠ "" ∧ normQuote ≠ "" ∧ 8 ≤ normQuote.length ∧
        strIncludes normSnippet normQuote = true then 1.6 else 0) +
    (if snippet ≠ "" ∧ valueProbe ≠ "" then 2.2 * overlapScore snippet valueProbe else 0) +
    (if snippet ≠ "" ∧ valueProbe ≠ "" ∧ normValue ≠ "" ∧ 6 ≤ normValue.length ∧
        strIncludes normSnippet normValue = true then 1.4 else 0) +
    (if snippet ≠ "" ∧ reasoningProbe ≠ "" then 0.8 * overlapScore snippet reasoningProbe else 0) +
    (if (citation.bbox.getD []).length = 4 ∧ citation.bbox.isSome then 0.25 else 0) +
    (match citation.selector with | some s => if s ≠ "" then 0.2 else 0 | none => 0) +
    (match c.page, citation.page with
      | some p, some q => if p = q then 0.3 else 0
      | _, _ => 0)

/-- One step of the `forEach` best-tracking loops in `common.ts`: replace the
accumulator when the new score is strictly greater. -/
def bestStep {α : Type} (f : α → ℚ) (acc : Option α × ℚ) (x : α) : Option α × ℚ :=
  if f x > acc.2 then (some x, f x) else acc

/-- The candidate pool of `pickPrimaryCitation`: the viable citations, or the
whole list when none is viable. -/
def citationPool (citations : List SourceCitation) : List SourceCitation :=
  let viable := citations.filter (fun c => viableCitation c)
  if viable.isEmpty then citations else viable

/-- `pickPrimaryCitation` (`common.ts`, cell-aware version at lines 188–211):
empty/missing list ⇒ `null`; otherwise scan the pool keeping the citation
with the strictly highest score (initial best `pool[0]`, score −1). -/
def pickPrimaryCitation (citations : Option (List SourceCitation))
    (cell : Option ExtractionCell) : Option SourceCitation :=
  match citations with
  | none => none
  | some l =>
    if l.isEmpty then none
    else
      let pool := citationPool l
      match cell with
      | none => pool.head?
      | some _ =>
        let best := pool.foldl (bestStep (fun c => scoreCitationAgainstCell c cell))
          (pool.head?, -1)
        match best.1 with
        | some b => some b
        | none => pool.head?

/-- `scoreBlockAgainstCell` (`common.ts`): 2.5 per probe contained as a
normalized substring of the block text, otherwise the token-overlap score;
+0.3 when some citation of the block sits on the hinted page. -/
def scoreBlockAgainstCell (block : ArtifactBlock) (probes : List String)
    (pageHint : Option ℚ) : ℚ :=
  if block.text = "" ∨ block.citations.isEmpty then 0
  else
    let normBlock := normalizeForMatch block.text
    let base := probes.foldl
      (fun acc probe =>
        let normProbe := normalizeForMatch probe
        if normProbe = "" then acc
        else if strIncludes normBlock normProbe then acc + 2.5
        else acc + overlapScore block.text probe) 0
    match pageHint with
    | some p => if block.citations.any (fun c => c.page == some p) then base + 0.3 else base
    | none => base

/-- The probe list `pickBestBlockForCell` builds:
`[cell?.quote, cell?.value]` trimmed, empties dropped. -/
def cellProbes (cell : Option ExtractionCell) : List String :=
  (([(cell.map (fun c => c.quote)).getD "", (cell.map (fun c => c.value)).getD ""].map jsTrim).filter
    (fun p => decide (p ≠ "")))

/-- `document.artifact?.blocks || []`. -/
def docBlocks (document : DocumentFile) : List ArtifactBlock :=
  match document.artifact with
  | some a => a.blocks
  | none => []

/-- `pickBestBlockForCell` (`common.ts`): best-scoring block against the
quote/value probes, kept only when its score reaches 0.2. -/
def pickBestBlockForCell (document : DocumentFile) (cell : Option ExtractionCell) :
    Option ArtifactBlock :=
  let blocks := docBlocks document
  if blocks.isEmpty then none
  else
    let probes := cellProbes cell
    if probes.isEmpty then none
    else
      let best := blocks.foldl
        (bestStep (fun b => scoreBlockAgainstCell b probes (cell.bind (fun c => c.page))))
        ((none : Option ArtifactBlock), 0)
      if best.2 ≥ 0.2 then best.1 else none

/-- `resolvePrimaryCitation` (`common.ts`): the cell's own citations first,
then the block-fallback search. -/
def resolvePrimaryCitation (document : DocumentFile) (cell : Option ExtractionCell) :
    Option SourceCitation :=
  match pickPrimaryCitation (cell.bind (fun c => c.citations)) cell with
  | some c => some c
  | none =>
    pickPrimaryCitation ((pickBestBlockForCell document cell).map (fun b => b.citations)) cell

/-! ## `PdfCitationViewer.tsx` — probes and Anchor Plausibility Gate -/

/-- `normalizeBbox` (`PdfCitationViewer.tsx`): require a 4-element array,
sort each axis with min/max, reject degenerate boxes, return
`[left, bottom, right, top]`.  (The JS finiteness check is vacuous over ℚ.) -/
def normalizeBbox (bbox : Option (List ℚ)) : Option (List ℚ) :=
  match bbox with
  | none => none
  | some values =>
    match values with
    | [v0, v1, v2, v3] =>
      let left := min v0 v2
      let right := max v0 v2
      let bottom := min v1 v3
      let top := max v1 v3
      if right ≤ left ∨ top ≤ bottom then none
      else some [left, bottom, right, top]
    | _ => none

/-- `isUsableBbox` (`PdfCitationViewer.tsx`): a bbox normalizes successfully. -/
def isUsableBbox (bbox : Option (List ℚ)) : Bool :=
  (normalizeBbox bbox).isSome

/-- `hasPlausibleArea` (`PdfCitationViewer.tsx`): normalized, positive page
dimensions, inside the page bounds up to 1 unit, and area ratio within
`[0.0001, 0.35]`. -/
def hasPlausibleArea (bbox : List ℚ) (pageWidth pageHeight : ℚ) : Bool :=
  match normalizeBbox (some bbox) with
  | some [x0, y0, x1, y1] =>
    if pageWidth ≤ 0 ∨ pageHeight ≤ 0 then false
    else if x0 < -1 ∨ y0 < -1 ∨ x1 > pageWidth + 1 ∨ y1 > pageHeight + 1 then false
    else
      let areaRa := ((x1 - x0) * (y1 - y0)) / (pageWidth * pageHeight)
      decide (0.0001 ≤ areaRa) && decide (areaRa ≤ 0.35)
  | _ => false

/-- The month-name table of `expandIsoDateProbes` (index 0 unused). -/
def monthNames : List String :=
  ["", "January", "February", "March", "April", "May", "June", "July",
   "August", "September", "October", "November", "December"]

/-- The short month-name table of `expandIsoDateProbes` (index 0 unused). -/
def monthShort : List String :=
  ["", "Jan", "Feb", "Mar", "Apr", "May", "Jun", "Jul", "Aug", "Sep",
   "Oct", "Nov", "Dec"]

/-- The anchored regex `^(\d{4})-(\d{2})-(\d{2})$` of `expandIsoDateProbes`:
returns the three captured groups on a match. -/
def isoDateParts (s : String) : Option (String × String × String) :=
  match s.toList with
  | [y1, y2, y3, y4, h1, m1, m2, h2, d1, d2] =>
    if [y1, y2, y3, y4].all Char.isDigit && h1 == '-' && [m1, m2].all Char.isDigit &&
        h2 == '-' && [d1, d2].all Char.isDigit then
      some (String.mk [y1, y2, y3, y4], String.mk [m1, m2], String.mk [d1, d2])
    else none
  | _ => none

/-- `expandIsoDateProbes` (`PdfCitationViewer.tsx` and the markdown fallback
viewer, identical code): trim, match the ISO pattern, and emit the four
human-readable variants, the day printed without leading zeros. -/
def expandIsoDateProbes (value : String) : List String :=
  let normalized := jsTrim value
  match isoDateParts normalized with
  | none => []
  | some (year, monthRaw, dayRaw) =>
    let month := digitsToNat monthRaw
    let day := digitsToNat dayRaw
    if month < 1 ∨ monthNames.length ≤ month then []
    else
      [monthNames.getD month "" ++ " " ++ Nat.repr day ++ ", " ++ year,
       monthShort.getD month "" ++ " " ++ Nat.repr day ++ ", " ++ year,
       Nat.repr day ++ " " ++ monthNames.getD month "" ++ " " ++ year,
       Nat.repr day ++ " " ++ monthShort.getD month "" ++ " " ++ year]

/-- `quoteFragments` (`PdfCitationViewer.tsx`): split the quote on
newline/period/semicolon runs, trim, keep chunks of length ≥ 18, first 4. -/
def quoteFragments (value : String) : List String :=
  ((((splitSentenceSeps value.toList).map String.mk).map jsTrim).filter
    (fun entry => decide (18 ≤ entry.length))).take 4

/-- The raw probe array built inside the `snippetCandidates` memo of
`PdfCitationViewer.tsx`, before the dedup loop:
`[snippet.trim, ...quoteFragments(quote.trim), value.trim,
...expandIsoDateProbes(value.trim)]`. -/
def rawSnippetProbes (primaryCitation : Option SourceCitation)
    (cell : Option ExtractionCell) : List String :=
  [jsTrim ((primaryCitation.map (fun c => c.snippet)).getD "")] ++
    quoteFragments (jsTrim ((cell.map (fun c => c.quote)).getD "")) ++
    [jsTrim ((cell.map (fun c => c.value)).getD "")] ++
    expandIsoDateProbes (jsTrim ((cell.map (fun c => c.value)).getD ""))

/-- `snippetCandidates` (`PdfCitationViewer.tsx`): push each non-empty,
not-yet-seen probe in order. -/
def snippetCandidates (primaryCitation : Option SourceCitation)
    (cell : Option ExtractionCell) : List String :=
  (rawSnippetProbes primaryCitation cell).foldl
    (fun deduped probe =>
      if probe = "" then deduped
      else if deduped.contains probe then deduped
      else deduped ++ [probe]) []

/-- `renderedPage?.field || fallback` on rationals: `0` is falsy. -/
def jsOrQ (o : Option ℚ) (fallback : ℚ) : ℚ :=
  match o with
  | some x => if x = 0 then fallback else x
  | none => fallback

/-- `normalizedRenderedBbox` of the viewer: the server-matched bbox,
normalized. -/
def normalizedRenderedBbox (renderedPage : Option RenderedPdfPage) : Option (List ℚ) :=
  normalizeBbox (renderedPage.bind (fun rp => rp.matched_bbox))

/-- `normalizedCitationBbox` of the viewer: the citation's own bbox,
normalized. -/
def normalizedCitationBbox (primaryCitation : Option SourceCitation) : Option (List ℚ) :=
  normalizeBbox (primaryCitation.bind (fun c => c.bbox))

/-- `effectiveBBox` of the viewer: the rendered match wins over the citation
bbox. -/
def effectiveBBox (renderedPage : Option RenderedPdfPage)
    (primaryCitation : Option SourceCitation) : Option (List ℚ) :=
  match normalizedRenderedBbox renderedPage with
  | some b => some b
  | none => normalizedCitationBbox primaryCitation

/-- `matchConfidence` of the viewer: the response's number when present,
else 1 with a rendered bbox, else 0. -/
def matchConfidenceOf (renderedPage : Option RenderedPdfPage) : ℚ :=
  match renderedPage.bind (fun rp => rp.match_confidence) with
  | some c => c
  | none => if (normalizedRenderedBbox renderedPage).isSome then 1 else 0

/-- `bboxSource` of the viewer: the response's non-empty string, else
`'matched_snippet'` with a rendered bbox, else `'none'`. -/
def bboxSourceOf (renderedPage : Option RenderedPdfPage) : String :=
  let fallback := if (normalizedRenderedBbox renderedPage).isSome then "matched_snippet" else "none"
  match renderedPage.bind (fun rp => rp.bbox_source) with
  | some s => if s = "" then fallback else s
  | none => fallback

/-- `renderedPageWidth`: `pageMeta?.width || renderedPage?.page_width || 0`. -/
def renderedPageWidthOf (pageMeta : Option (ℚ × ℚ))
    (renderedPage : Option RenderedPdfPage) : ℚ :=
  jsOrQ (pageMeta.map (fun m => m.1)) (jsOrQ (renderedPage.map (fun rp => rp.page_width)) 0)

/-- `renderedPageHeight`: `pageMeta?.height || renderedPage?.page_height || 0`. -/
def renderedPageHeightOf (pageMeta : Option (ℚ × ℚ))
    (renderedPage : Option RenderedPdfPage) : ℚ :=
  jsOrQ (pageMeta.map (fun m => m.2)) (jsOrQ (renderedPage.map (fun rp => rp.page_height)) 0)

/-- `bboxPlausible` of the viewer: `hasPlausibleArea` on the effective bbox
and effective page dimensions, false without a bbox. -/
def bboxPlausibleOf (renderedPage : Option RenderedPdfPage)
    (primaryCitation : Option SourceCitation) (pageMeta : Option (ℚ × ℚ)) : Bool :=
  match effectiveBBox renderedPage primaryCitation with
  | some b => hasPlausibleArea b (renderedPageWidthOf pageMeta renderedPage)
      (renderedPageHeightOf pageMeta renderedPage)
  | none => false

/-- `canDrawBBox` (`PdfCitationViewer.tsx`, the Anchor Plausibility Gate
verdict): usable bbox, plausible area, `match_confidence ≥ 0.55`, and a
bbox source other than `'none'`. -/
def canDrawBBox (renderedPage : Option RenderedPdfPage)
    (primaryCitation : Option SourceCitation) (pageMeta : Option (ℚ × ℚ)) : Bool :=
  (effectiveBBox renderedPage primaryCitation).isSome &&
    isUsableBbox (effectiveBBox renderedPage primaryCitation) &&
    bboxPlausibleOf renderedPage primaryCitation pageMeta &&
    decide (matchConfidenceOf renderedPage ≥ 0.55) &&
    decide (bboxSourceOf renderedPage ≠ "none")

/-! ## Markdown fallback viewer — probe list -/

/-- `citationSnippets` of the markdown fallback viewer: trimmed non-empty
snippets of the first three citations. -/
def mdCitationSnippets (cell : Option ExtractionCell) : List String :=
  ((((cell.bind (fun c => c.citations)).getD []).take 3).map
    (fun c => jsTrim c.snippet)).filter (fun s => decide (s ≠ ""))

/-- `probes` of the markdown fallback viewer: quote, quote fragments, ISO
date expansions, value, citation snippets — trimmed, empties dropped. -/
def mdProbes (cell : Option ExtractionCell) : List String :=
  (([jsTrim ((cell.map (fun c => c.quote)).getD "")] ++
      quoteFragments (jsTrim ((cell.map (fun c => c.quote)).getD "")) ++
      expandIsoDateProbes (jsTrim ((cell.map (fun c => c.value)).getD "")) ++
      [jsTrim ((cell.map (fun c => c.value)).getD "")] ++
      mdCitationSnippets cell).map jsTrim).filter (fun p => decide (p ≠ ""))

/-! ## Confidence Fuser -/

/-- Modelled from the spec: the backend implementation of the confidence
fuser is not part of the frontend sources; this follows the
`confidence_from_signals` pseudocode in `docs/HybridExtractionPipeline.md`
§6.3 word for word (weights 0.45/0.35, +0.15 PASS, +0.03 PARTIAL with −0.20
otherwise, +0.08 self-consistency, clamp to `[0.05, 0.98]`). -/
def confidence_from_signals (base_confidence retrieval_score : ℚ)
    (verifier_status : String) (self_consistent : Bool) : ℚ :=
  let score0 := 0.45 * base_confidence + 0.35 * retrieval_score
  let score1 :=
    if verifier_status = "PASS" then score0 + 0.15
    else if verifier_status = "PARTIAL" then score0 + 0.03
    else score0 - 0.20
  let score2 := if self_consistent then score1 + 0.08 else score1
  max 0.05 (min 0.98 score2)

/-! ## Spec-side reference definitions (for refinement comparisons) -/

/-- The full month name as the spec's date-variant examples spell it
(`"March 4, 2014"`, "October", ...); written independently of the code's
lookup table. -/
def specMonthName : ℕ → String
  | 1 => "January"
  | 2 => "February"
  | 3 => "March"
  | 4 => "April"
  | 5 => "May"
  | 6 => "June"
  | 7 => "July"
  | 8 => "August"
  | 9 => "September"
  | 10 => "October"
  | 11 => "November"
  | 12 => "December"
  | _ => ""

/-- The three-letter month abbreviation as the spec's examples spell it
(`"Mar 4, 2014"`, ...). -/
def specMonthAbbrev : ℕ → String
  | 1 => "Jan"
  | 2 => "Feb"
  | 3 => "Mar"
  | 4 => "Apr"
  | 5 => "May"
  | 6 => "Jun"
  | 7 => "Jul"
  | 8 => "Aug"
  | 9 => "Sep"
  | 10 => "Oct"
  | 11 => "Nov"
  | 12 => "Dec"
  | _ => ""

/-- The four human-readable date variants, in the spec's order:
`"<Month> <D>, <YYYY>"`, `"<Mon> <D>, <YYYY>"`, `"<D> <Month> <YYYY>"`,
`"<D> <Mon> <YYYY>"`, the day printed without a leading zero. -/
def specDateVariants (year : String) (month day : ℕ) : List String :=
  [specMonthName month ++ " " ++ Nat.repr day ++ ", " ++ year,
   specMonthAbbrev month ++ " " ++ Nat.repr day ++ ", " ++ year,
   Nat.repr day ++ " " ++ specMonthName month ++ " " ++ year,
   Nat.repr day ++ " " ++ specMonthAbbrev month ++ " " ++ year]

/-! ## Concrete instances used by witnesses and counterexamples -/

/-- A citation with none of snippet / selector / page / bbox present. -/
def emptyAnchorCit : SourceCitation :=
  { source := "pdf", snippet := "" }

/-- Scenario-D-shaped counterexample data: a citation whose snippet shares
two value tokens out of four, on page 2. -/
def citPage2 : SourceCitation :=
  { source := "pdf", snippet := "alpha beta gamma delta", page := some 2 }

/-- Scenario-D-shaped counterexample data: a citation whose snippet shares
two value tokens out of three, on page 7 — the higher raw score. -/
def citPage7 : SourceCitation :=
  { source := "pdf", snippet := "alpha beta epsilon", page := some 7 }

/-- The cell both tie-break citations are scored against. -/
def cellTwoTokens : ExtractionCell :=
  { value := "alpha beta", confidence := "High", quote := "", reasoning := "" }

/-- A primary citation whose snippet is a short sentence. -/
def citInvoice : SourceCitation :=
  { source := "pdf", snippet := "Invoice total." }

/-- A cell whose quote is one 33-character sentence without separators. -/
def cellPayment : ExtractionCell :=
  { value := "", confidence := "High", quote := "Payment is due within thirty days",
    reasoning := "" }

/-- Scenario A: the citation attached to the date-bearing block. -/
def citOctober : SourceCitation :=
  { source := "pdf", snippet := "Effective as of October 1, 2014", page := some 1 }

/-- Scenario A: the only block of the document, carrying the date spelled
out in words. -/
def blockOctober : ArtifactBlock :=
  { id := "b1", type := "paragraph", text := "Effective as of October 1, 2014",
    citations := [citOctober] }

/-- Scenario A: the parsed artifact holding exactly `blockOctober`. -/
def artifactOctober : ParsedArtifact :=
  { doc_version_id := "v1", format := "pdf", markdown := "", blocks := [blockOctober] }

/-- Scenario A: a document whose artifact holds exactly `blockOctober`. -/
def docOctober : DocumentFile :=
  { id := "d1", name := "contract.pdf", artifact := some artifactOctober }

/-- Scenario A: the extracted cell — ISO-dated value, no quote, no attached
citations. -/
def cellIsoDate : ExtractionCell :=
  { value := "2014-10-01", confidence := "High", quote := "", reasoning := "" }

/-- A rendered-page response whose match confidence is below the 0.55 gate. -/
def rpLowConf : RenderedPdfPage :=
  { page_width := 612, page_height := 792, matched_bbox := some [10, 700, 300, 720],
    match_mode := some "fuzzy", match_confidence := some 0.3,
    bbox_source := some "matched_snippet" }

/-- Determinism check data: a cell as scored during one call. -/
def cellRunA : ExtractionCell :=
  { value := "Acme Corp", confidence := "High", quote := "between Acme Corp and Beta LLC",
    page := some 2, reasoning := "named in the preamble", citations := some [citPage2],
    status := some "verified" }

/-- Determinism check data: the same candidate citations and cell content
with different review-state fields (`confidence`, `status`). -/
def cellRunB : ExtractionCell :=
  { value := "Acme Corp", confidence := "Low", quote := "between Acme Corp and Beta LLC",
    page := some 2, reasoning := "named in the preamble", citations := some [citPage2],
    status := none }

/-! ## Helper lemmas -/

/-- Lemma: a successful `normalizeBbox` yields a strictly ordered
`[left, bottom, right, top]` quadruple. -/
theorem normalizeBbox_shape (o : Option (List ℚ)) (l : List ℚ)
    (h : normalizeBbox o = some l) :
    ∃ x0 y0 x1 y1, l = [x0, y0, x1, y1] ∧ x0 < x1 ∧ y0 < y1 := by
  cases o with
  | none => exact absurd h (by simp [normalizeBbox])
  | some values =>
    rcases values with _ | ⟨v0, _ | ⟨v1, _ | ⟨v2, _ | ⟨v3, _ | ⟨v4, rest⟩⟩⟩⟩⟩
    · exact absurd h (by simp [normalizeBbox])
    · exact absurd h (by simp [normalizeBbox])
    · exact absurd h (by simp [normalizeBbox])
    · exact absurd h (by simp [normalizeBbox])
    · simp only [normalizeBbox] at h
      split_ifs at h with hdeg
      push_neg at hdeg
      exact ⟨min v0 v2, min v1 v3, max v0 v2, max v1 v3,
        (Option.some_inj.mp h).symm, hdeg.1, hdeg.2⟩
    · exact absurd h (by simp [normalizeBbox])
  

/-! ## Claim C1 — the gate never fires below confidence 0.55 -/

/-- C1: for every rendered-page response, citation and page metadata, when
the gate's match confidence is below 0.55 the Anchor Plausibility Gate
verdict `canDrawBBox` is false, regardless of the bbox's shape or
position. -/
theorem anchor_gate_blocks_low_confidence
    (renderedPage : Option RenderedPdfPage) (primaryCitation : Option SourceCitation)
    (pageMeta : Option (ℚ × ℚ))
    (h : matchConfidenceOf renderedPage < 0.55) :
    canDrawBBox renderedPage primaryCitation pageMeta = false := by
  have hnot : ¬ (0.55 ≤ matchConfidenceOf renderedPage) := not_le.mpr h
  simp [canDrawBBox, ge_iff_le, hnot]

/-- Witness for C1 at a concrete response with confidence 0.3. -/
theorem anchor_gate_blocks_low_confidence_witness :
    matchConfidenceOf (some rpLowConf) < 0.55 ∧
      canDrawBBox (some rpLowConf) none none = false := by
  have hc : matchConfidenceOf (some rpLowConf) = 0.3 := by with_unfolding_all rfl
  have hlt : matchConfidenceOf (some rpLowConf) < 0.55 := by rw [hc]; norm_num
  exact ⟨hlt, anchor_gate_blocks_low_confidence (some rpLowConf) none none hlt⟩

/-! ## Claim C3 — the area/bounds band of the gate -/

/-- C3: `hasPlausibleArea` accepts a bbox only if it normalizes to a
non-degenerate `[x0, y0, x1, y1]`, stays within the page bounds up to one
unit, and has an area ratio inside `[0.0001, 0.35]`; in particular the bbox
`[10,10,12,12]` on a 612×792 page is rejected, its area ratio lying below
0.0001. -/
theorem plausible_area_only_within_band :
    (∀ (bbox : List ℚ) (w h : ℚ), hasPlausibleArea bbox w h = true →
      ∃ x0 y0 x1 y1, normalizeBbox (some bbox) = some [x0, y0, x1, y1] ∧
        x0 < x1 ∧ y0 < y1 ∧ -1 ≤ x0 ∧ -1 ≤ y0 ∧ x1 ≤ w + 1 ∧ y1 ≤ h + 1 ∧
        0.0001 ≤ (x1 - x0) * (y1 - y0) / (w * h) ∧
        (x1 - x0) * (y1 - y0) / (w * h) ≤ 0.35) ∧
    hasPlausibleArea [10, 10, 12, 12] 612 792 = false ∧
    ((12 - 10) * (12 - 10) : ℚ) / (612 * 792) < 0.0001 := by
  refine ⟨?_, by with_unfolding_all rfl, by norm_num⟩
  intro bbox w h hh
  unfold hasPlausibleArea at hh
  cases hnb : normalizeBbox (some bbox) with
  | none => rw [hnb] at hh; exact absurd hh (by simp)
  | some l =>
    obtain ⟨x0, y0, x1, y1, rfl, hx, hy⟩ := normalizeBbox_shape _ _ hnb
    rw [hnb] at hh
    simp only [] at hh
    split_ifs at hh with hpage hbounds
    push_neg at hbounds
    simp only [Bool.and_eq_true, decide_eq_true_eq] at hh
    exact ⟨x0, y0, x1, y1, rfl, hx, hy, hbounds.1, hbounds.2.1, hbounds.2.2.1,
      hbounds.2.2.2, hh.1, hh.2⟩

/-- Witness for C3 at the accepted bbox `[0,0,100,100]` on a 612×792 page. -/
theorem plausible_area_only_within_band_witness :
    hasPlausibleArea [0, 0, 100, 100] 612 792 = true ∧
      ∃ x0 y0 x1 y1, normalizeBbox (some [(0 : ℚ), 0, 100, 100]) = some [x0, y0, x1, y1] ∧
        x0 < x1 ∧ y0 < y1 ∧ -1 ≤ x0 ∧ -1 ≤ y0 ∧ x1 ≤ 612 + 1 ∧ y1 ≤ 792 + 1 ∧
        0.0001 ≤ (x1 - x0) * (y1 - y0) / ((612 : ℚ) * 792) ∧
        (x1 - x0) * (y1 - y0) / ((612 : ℚ) * 792) ≤ 0.35 := by
  have hin : hasPlausibleArea [0, 0, 100, 100] 612 792 = true := by with_unfolding_all rfl
  exact ⟨hin, plausible_area_only_within_band.1 [0, 0, 100, 100] 612 792 hin⟩

/-! ## Claim C8 — the confidence fuser is bounded -/

/-- C8: the confidence fuser computes 0.45·base + 0.35·retrieval, plus 0.15
on PASS, plus 0.03 on PARTIAL, minus 0.20 otherwise, plus 0.08 on
self-consistency, clamped to `[0.05, 0.98]` — and for every combination of
inputs the result lands in `[0.05, 0.98]`. -/
theorem confidence_from_signals_bounded
    (base_confidence retrieval_score : ℚ) (verifier_status : String)
    (self_consistent : Bool) :
    confidence_from_signals base_confidence retrieval_score verifier_status
        self_consistent
      = max 0.05 (min 0.98
          (0.45 * base_confidence + 0.35 * retrieval_score +
            (if verifier_status = "PASS" then 0.15
              else if verifier_status = "PARTIAL" then 0.03 else -0.20) +
            (if self_consistent then 0.08 else 0))) ∧
      0.05 ≤ confidence_from_signals base_confidence retrieval_score verifier_status
        self_consistent ∧
      confidence_from_signals base_confidence retrieval_score verifier_status
        self_consistent ≤ 0.98 := by
  refine ⟨?_, ?_, ?_⟩
  · unfold confidence_from_signals
    split_ifs <;> first
      | rfl
      | (congr 1; congr 1; ring)
  · unfold confidence_from_signals
    exact le_max_left _ _
  · unfold confidence_from_signals
    exact max_le (by norm_num) (min_le_left _ _)

/-- Lemma: a best-tracking fold either keeps its accumulator or ends on a
list element paired with that element's score; the best score never
decreases and ends at least as high as every element's score. -/
theorem bestStep_foldl_spec {α : Type} (f : α → ℚ) (l : List α) :
    ∀ acc : Option α × ℚ,
      (l.foldl (bestStep f) acc = acc ∨
        ∃ x ∈ l, l.foldl (bestStep f) acc = (some x, f x)) ∧
      acc.2 ≤ (l.foldl (bestStep f) acc).2 ∧
      ∀ y ∈ l, f y ≤ (l.foldl (bestStep f) acc).2 := by
  induction l with
  | nil => exact fun acc => ⟨Or.inl rfl, le_refl _, by simp⟩
  | cons x xs ih =>
    intro acc
    simp only [List.foldl_cons]
    obtain ⟨hmem, hge, hall⟩ := ih (bestStep f acc x)
    by_cases hx : f x > acc.2
    · have hstep : bestStep f acc x = (some x, f x) := by simp [bestStep, hx]
      rw [hstep] at hmem hge hall ⊢
      refine ⟨?_, le_trans (le_of_lt hx) hge, ?_⟩
      · rcases hmem with h | ⟨y, hy, h⟩
        · exact Or.inr ⟨x, List.mem_cons_self x xs, h⟩
        · exact Or.inr ⟨y, List.mem_cons_of_mem x hy, h⟩
      · intro y hy
        rcases List.mem_cons.mp hy with rfl | hy2
        · exact hge
        · exact hall y hy2
    · have hstep : bestStep f acc x = acc := by simp [bestStep, hx]
      rw [hstep] at hmem hge hall ⊢
      push_neg at hx
      refine ⟨?_, hge, ?_⟩
      · rcases hmem with h | ⟨y, hy, h⟩
        · exact Or.inl h
        · exact Or.inr ⟨y, List.mem_cons_of_mem x hy, h⟩
      · intro y hy
        rcases List.mem_cons.mp hy with rfl | hy2
        · exact le_trans hx hge
        · exact hall y hy2

/-- Lemma: the citation pool is drawn from the input list. -/
theorem citationPool_subset (l : List SourceCitation) :
    ∀ c ∈ citationPool l, c ∈ l := by
  intro c hc
  simp only [citationPool] at hc
  split_ifs at hc
  · exact hc
  · exact List.mem_of_mem_filter hc

/-- Lemma: a non-empty citation list yields a non-empty pool. -/
theorem citationPool_ne_nil (l : List SourceCitation) (h : l ≠ []) :
    citationPool l ≠ [] := by
  simp only [citationPool]
  split_ifs with hv
  · exact h
  · intro hc
    rw [hc] at hv
    exact hv rfl

/-- Lemma: `natToRat` is the canonical cast. -/
theorem natToRat_eq_cast (n : ℕ) : natToRat n = (n : ℚ) := by
  unfold natToRat
  rw [Rat.mkRat_one]
  simp

/-- Lemma: the token-overlap ratio is never negative. -/
theorem overlapScore_nonneg (l r : String) : 0 ≤ overlapScore l r := by
  simp only [overlapScore]
  split_ifs
  · exact le_refl 0
  · apply div_nonneg <;> rw [natToRat_eq_cast] <;> positivity

/-- Lemma: every citation score is a sum of non-negative addends. -/
theorem scoreCitationAgainstCell_nonneg (citation : SourceCitation)
    (cell : Option ExtractionCell) : 0 ≤ scoreCitationAgainstCell citation cell := by
  cases cell with
  | none => simp [scoreCitationAgainstCell]
  | some c =>
    simp only [scoreCitationAgainstCell]
    have h1 := overlapScore_nonneg (jsTrim citation.snippet) (jsTrim c.quote)
    have h2 := overlapScore_nonneg (jsTrim citation.snippet) (jsTrim c.value)
    have h3 := overlapScore_nonneg (jsTrim citation.snippet)
      (String.mk ((jsTrim c.reasoning).toList.take 280))
    refine add_nonneg (add_nonneg (add_nonneg (add_nonneg (add_nonneg (add_nonneg
      (add_nonneg ?_ ?_) ?_) ?_) ?_) ?_) ?_) ?_
    · split_ifs <;> [nlinarith; norm_num]
    · split_ifs <;> norm_num
    · split_ifs <;> [nlinarith; norm_num]
    · split_ifs <;> norm_num
    · split_ifs <;> [nlinarith; norm_num]
    · split_ifs <;> norm_num
    · rcases citation.selector with _ | s
      · norm_num
      · simp only []
        split_ifs <;> norm_num
    · rcases c.page with _ | p <;> rcases citation.page with _ | q <;> simp only []
      · norm_num
      · norm_num
      · norm_num
      · split_ifs <;> norm_num

/-- Lemma: on a non-empty citation list the picker returns some member of
the list, whatever the cell. -/
theorem pickPrimaryCitation_mem (l : List SourceCitation) (cell : Option ExtractionCell)
    (h : l ≠ []) : ∃ c ∈ l, pickPrimaryCitation (some l) cell = some c := by
  have hne : l.isEmpty = false := by
    cases l
    · exact absurd rfl h
    · rfl
  obtain ⟨p, ps, hp⟩ : ∃ p ps, citationPool l = p :: ps := by
    cases hpl : citationPool l with
    | nil => exact absurd hpl (citationPool_ne_nil l h)
    | cons p ps => exact ⟨p, ps, rfl⟩
  have hpmem : p ∈ l := citationPool_subset l p (by rw [hp]; exact List.mem_cons_self p ps)
  cases cell with
  | none =>
    refine ⟨p, hpmem, ?_⟩
    simp [pickPrimaryCitation, hne, hp]
  | some ec =>
    obtain ⟨hmem, hge, hall⟩ := bestStep_foldl_spec
      (fun c => scoreCitationAgainstCell c (some ec)) (citationPool l)
      ((citationPool l).head?, -1)
    rcases hmem with heq | ⟨x, hx, heq⟩
    · refine ⟨p, hpmem, ?_⟩
      simp only [pickPrimaryCitation, hne, Bool.false_eq_true, if_false]
      rw [heq, hp]
      simp
    · refine ⟨x, citationPool_subset l x hx, ?_⟩
      simp only [pickPrimaryCitation, hne, Bool.false_eq_true, if_false]
      rw [heq]

/-- Lemma: with a cell present the picker lands on a pool member whose
score is maximal over the pool. -/
theorem pickPrimaryCitation_argmax (l : List SourceCitation) (ec : ExtractionCell)
    (h : l ≠ []) :
    ∃ c, pickPrimaryCitation (some l) (some ec) = some c ∧ c ∈ citationPool l ∧
      ∀ d ∈ citationPool l, scoreCitationAgainstCell d (some ec) ≤
        scoreCitationAgainstCell c (some ec) := by
  have hne : l.isEmpty = false := by
    cases l
    · exact absurd rfl h
    · rfl
  obtain ⟨p, ps, hp⟩ : ∃ p ps, citationPool l = p :: ps := by
    cases hpl : citationPool l with
    | nil => exact absurd hpl (citationPool_ne_nil l h)
    | cons p ps => exact ⟨p, ps, rfl⟩
  have hpnn : (0 : ℚ) ≤ scoreCitationAgainstCell p (some ec) :=
    scoreCitationAgainstCell_nonneg p (some ec)
  have hstep : bestStep (fun c => scoreCitationAgainstCell c (some ec))
      ((some p : Option SourceCitation), (-1 : ℚ)) p
      = (some p, scoreCitationAgainstCell p (some ec)) := by
    have hgt : scoreCitationAgainstCell p (some ec) > (-1 : ℚ) :=
      lt_of_lt_of_le (by norm_num) hpnn
    simp [bestStep, hgt]
  have hfold : (citationPool l).foldl
      (bestStep (fun c => scoreCitationAgainstCell c (some ec)))
      ((citationPool l).head?, -1)
      = ps.foldl (bestStep (fun c => scoreCitationAgainstCell c (some ec)))
          (some p, scoreCitationAgainstCell p (some ec)) := by
    rw [hp]
    simp only [List.foldl_cons, List.head?_cons]
    rw [hstep]
  obtain ⟨hmem, hge, hall⟩ := bestStep_foldl_spec
    (fun c => scoreCitationAgainstCell c (some ec)) ps
    (some p, scoreCitationAgainstCell p (some ec))
  rcases hmem with heq | ⟨x, hx, heq⟩
  · refine ⟨p, ?_, by rw [hp]; exact List.mem_cons_self p ps, ?_⟩
    · simp only [pickPrimaryCitation, hne, Bool.false_eq_true, if_false]
      rw [hfold, heq]
    · intro d hd
      rw [hp] at hd
      rcases List.mem_cons.mp hd with rfl | hd2
      · exact le_refl _
      · have := hall d hd2
        rw [heq] at this
        exact this
  · refine ⟨x, ?_, by rw [hp]; exact List.mem_cons_of_mem p hx, ?_⟩
    · simp only [pickPrimaryCitation, hne, Bool.false_eq_true, if_false]
      rw [hfold, heq]
    · intro d hd
      have hx2 : scoreCitationAgainstCell x (some ec)
          = (ps.foldl (bestStep (fun c => scoreCitationAgainstCell c (some ec)))
              (some p, scoreCitationAgainstCell p (some ec))).2 := by
        rw [heq]
      rw [hp] at hd
      rcases List.mem_cons.mp hd with rfl | hd2
      · rw [hx2]; exact hge
      · rw [hx2]; exact hall d hd2

/-! ## Claim C2 — behaviour on lists with no viable citation -/

/-- C2 counterexample: a one-element list whose citation has none of
snippet / selector / page / bbox still yields that citation, not `null`. -/
theorem pickPrimary_nonviable_cex :
    viableCitation emptyAnchorCit = false ∧
      pickPrimaryCitation (some [emptyAnchorCit]) none = some emptyAnchorCit := by
  exact ⟨by with_unfolding_all rfl, by with_unfolding_all rfl⟩

/-- C2 (amended): `pickPrimaryCitation` returns `null` exactly when the
citations list is missing or empty; for every non-empty list — even one
with no viable citation — it returns some member of the list. -/
theorem pickPrimaryCitation_null_only_when_empty
    (l : List SourceCitation) (cell : Option ExtractionCell) (h : l ≠ []) :
    pickPrimaryCitation none cell = none ∧
      pickPrimaryCitation (some []) cell = none ∧
      ∃ c ∈ l, pickPrimaryCitation (some l) cell = some c :=
  ⟨rfl, by simp [pickPrimaryCitation], pickPrimaryCitation_mem l cell h⟩

/-- Witness for the amended C2 on the all-empty citation. -/
theorem pickPrimaryCitation_null_only_when_empty_witness :
    ([emptyAnchorCit] ≠ ([] : List SourceCitation)) ∧
      (pickPrimaryCitation none none = none ∧
        pickPrimaryCitation (some []) none = none ∧
        ∃ c ∈ [emptyAnchorCit], pickPrimaryCitation (some [emptyAnchorCit]) none = some c) :=
  ⟨by simp, pickPrimaryCitation_null_only_when_empty [emptyAnchorCit] none (by simp)⟩

/-! ## Claim C7 — no early-page tie-break exists -/

/-- C7 counterexample: two citations whose scores differ by less than 0.4,
the lower-scoring one on page 2, the higher on page 7; the picker takes the
page-7 citation — no early-page boost is applied. -/
theorem resolver_no_early_page_boost_cex :
    pickPrimaryCitation (some [citPage2, citPage7]) (some cellTwoTokens) = some citPage7 ∧
      citPage2.page = some 2 ∧ citPage7.page = some 7 ∧
      scoreCitationAgainstCell citPage7 (some cellTwoTokens)
          - scoreCitationAgainstCell citPage2 (some cellTwoTokens) < 0.4 ∧
      scoreCitationAgainstCell citPage2 (some cellTwoTokens)
          < scoreCitationAgainstCell citPage7 (some cellTwoTokens) := by
  have h2 : scoreCitationAgainstCell citPage2 (some cellTwoTokens) = 2.5 := by
    with_unfolding_all rfl
  have h7 : scoreCitationAgainstCell citPage7 (some cellTwoTokens) = 43 / 15 := by
    with_unfolding_all rfl
  refine ⟨by with_unfolding_all rfl, rfl, rfl, ?_, ?_⟩
  · rw [h2, h7]; norm_num
  · rw [h2, h7]; norm_num

/-- C7 (amended): the Citation Resolver applies no tie-break of any kind:
for every non-empty candidate list and cell it returns a citation of the
pool whose score is maximal, regardless of field identity or page
position. -/
theorem pickPrimaryCitation_pure_argmax (l : List SourceCitation)
    (ec : ExtractionCell) (h : l ≠ []) :
    ∃ c, pickPrimaryCitation (some l) (some ec) = some c ∧ c ∈ citationPool l ∧
      ∀ d ∈ citationPool l, scoreCitationAgainstCell d (some ec) ≤
        scoreCitationAgainstCell c (some ec) :=
  pickPrimaryCitation_argmax l ec h

/-- Witness for the amended C7 on the two tie-break citations. -/
theorem pickPrimaryCitation_pure_argmax_witness :
    ∃ c, pickPrimaryCitation (some [citPage2, citPage7]) (some cellTwoTokens) = some c ∧
      c ∈ citationPool [citPage2, citPage7] ∧
      ∀ d ∈ citationPool [citPage2, citPage7],
        scoreCitationAgainstCell d (some cellTwoTokens) ≤
          scoreCitationAgainstCell c (some cellTwoTokens) :=
  pickPrimaryCitation_pure_argmax [citPage2, citPage7] cellTwoTokens (by simp)

/-! ## Claim C4 — the ISO-date probe expansion -/

/-- C4 counterexample: `" 2014-10-01"` does not match the anchored ISO
pattern, yet the expansion is non-empty, because the code trims the value
before matching. -/
theorem expandIsoDateProbes_trims_cex :
    isoDateParts " 2014-10-01" = none ∧
      expandIsoDateProbes " 2014-10-01"
        = ["October 1, 2014", "Oct 1, 2014", "1 October 2014", "1 Oct 2014"] :=
  ⟨rfl, by with_unfolding_all rfl⟩

/-- C4 (amended): with the ISO pattern applied to the trimmed value, a
non-match yields `[]`, and a match with month between 1 and 12 yields
exactly the four spec variants, in order, the day printed without a
leading zero. -/
theorem expandIsoDateProbes_characterization (value : String) :
    (isoDateParts (jsTrim value) = none → expandIsoDateProbes value = []) ∧
    (∀ year monthRaw dayRaw,
      isoDateParts (jsTrim value) = some (year, monthRaw, dayRaw) →
      1 ≤ digitsToNat monthRaw → digitsToNat monthRaw ≤ 12 →
      expandIsoDateProbes value
        = specDateVariants year (digitsToNat monthRaw) (digitsToNat dayRaw)) := by
  constructor
  · intro h
    simp only [expandIsoDateProbes, h]
  · intro year monthRaw dayRaw h h1 h12
    simp only [expandIsoDateProbes, h]
    have hmonth : ¬(digitsToNat monthRaw < 1 ∨ monthNames.length ≤ digitsToNat monthRaw) := by
      push_neg
      constructor
      · exact h1
      · simp only [monthNames, List.length]
        omega
    rw [if_neg hmonth]
    set n := digitsToNat monthRaw with hn
    interval_cases n <;> rfl

/-- Witness for the amended C4 at the spec's own example date. -/
theorem expandIsoDateProbes_characterization_witness :
    isoDateParts (jsTrim "2014-03-04") = some ("2014", "03", "04") ∧
      expandIsoDateProbes "2014-03-04"
        = ["March 4, 2014", "Mar 4, 2014", "4 March 2014", "4 Mar 2014"] := by
  have hparts : isoDateParts (jsTrim "2014-03-04") = some ("2014", "03", "04") := by
    with_unfolding_all rfl
  have hm : digitsToNat "03" = 3 := rfl
  have hd : digitsToNat "04" = 4 := rfl
  have happ := (expandIsoDateProbes_characterization "2014-03-04").2 "2014" "03" "04"
    hparts (by rw [hm]; norm_num) (by rw [hm]; norm_num)
  rw [hm, hd] at happ
  exact ⟨hparts, happ⟩

/-! ## Claim C5 — the probe priority order -/

/-- C5 counterexample: with a citation snippet present the PDF viewer's
probe list starts with the snippet, not with the cell's quote. -/
theorem snippet_probe_order_cex :
    snippetCandidates (some citInvoice) (some cellPayment)
        = ["Invoice total.", "Payment is due within thirty days"] ∧
      cellPayment.quote = "Payment is due within thirty days" ∧
      (snippetCandidates (some citInvoice) (some cellPayment)).head?
        = some "Invoice total." ∧
      decide ("Invoice total." = cellPayment.quote) = false := by
  refine ⟨by with_unfolding_all rfl, rfl, by with_unfolding_all rfl, by decide⟩

/-- Lemma: the viewer's push-and-skip fold is first-occurrence
deduplication of the non-empty probes. -/
theorem foldl_pushDedup (l : List String) :
    ∀ acc : List String,
      l.foldl (fun deduped probe =>
        if probe = "" then deduped
        else if deduped.contains probe then deduped
        else deduped ++ [probe]) acc
      = acc ++ dedupFirstAux acc (l.filter (fun p => decide (p ≠ ""))) := by
  induction l with
  | nil => intro acc; simp [dedupFirstAux]
  | cons p ps ih =>
    intro acc
    by_cases hp : p = ""
    · subst hp
      simp only [List.foldl_cons, if_pos rfl, List.filter_cons, decide_not]
      simpa using ih acc
    · have hdp : (decide ¬(p = "")) = true := by simp [hp]
      simp only [List.foldl_cons, if_neg hp, List.filter_cons, decide_not, hdp,
        if_pos]
      by_cases hmem : acc.contains p
      · rw [if_pos hmem, ih acc]
        have hm2 : p ∈ acc := by simpa using hmem
        simp [dedupFirstAux, hmem, hp, hm2]
      · rw [if_neg hmem, ih (acc ++ [p])]
        have hm2 : p ∉ acc := by simpa using hmem
        simp [dedupFirstAux, hmem, hp, hm2, List.append_assoc]

/-- C5 (amended): the PDF viewer's probe list is, in order, the trimmed
primary-citation snippet, then the quote's ≥18-character fragments (first
four), then the trimmed value, then its ISO-date expansions — deduplicated
keeping first occurrences, empties dropped; the quote itself appears only
through its fragments and nothing places it first. -/
theorem snippetCandidates_order (primaryCitation : Option SourceCitation)
    (cell : Option ExtractionCell) :
    snippetCandidates primaryCitation cell
      = dedupFirst ((rawSnippetProbes primaryCitation cell).filter
          (fun p => decide (p ≠ ""))) := by
  unfold snippetCandidates dedupFirst
  simpa using foldl_pushDedup (rawSnippetProbes primaryCitation cell) []

/-! ## Claim C6 — Scenario A selects by token overlap, not date expansion -/

/-- C6 counterexample: in Scenario A the resolver does pick the
date-bearing block's citation, but its probe list is exactly the raw value
`"2014-10-01"` — no expanded human-readable date variant is among the
probes the Citation Resolver scores blocks against. -/
theorem resolver_no_date_expansion_cex :
    resolvePrimaryCitation docOctober (some cellIsoDate) = some citOctober ∧
      cellProbes (some cellIsoDate) = ["2014-10-01"] ∧
      "October 1, 2014" ∈ expandIsoDateProbes "2014-10-01" ∧
      (expandIsoDateProbes "2014-10-01").filter
        (fun p => (cellProbes (some cellIsoDate)).contains p) = [] := by
  have hexp : expandIsoDateProbes "2014-10-01"
      = ["October 1, 2014", "Oct 1, 2014", "1 October 2014", "1 Oct 2014"] := by
    with_unfolding_all rfl
  have hprobes : cellProbes (some cellIsoDate) = ["2014-10-01"] := by
    with_unfolding_all rfl
  refine ⟨by with_unfolding_all rfl, hprobes, by rw [hexp]; simp, ?_⟩
  rw [hexp, hprobes]
  decide

/-- C6 (amended): in Scenario A the resolver selects the block's citation
through token overlap of the raw ISO value against the block text (the
shared year token gives overlap 1/3 ≥ 0.2); ISO-date expansion plays no
part in the Citation Resolver. -/
theorem resolver_selects_by_token_overlap :
    resolvePrimaryCitation docOctober (some cellIsoDate) = some citOctober ∧
      cellProbes (some cellIsoDate) = ["2014-10-01"] ∧
      scoreBlockAgainstCell blockOctober (cellProbes (some cellIsoDate))
          cellIsoDate.page = 1 / 3 ∧
      overlapScore blockOctober.text "2014-10-01" = 1 / 3 ∧
      strIncludes (normalizeForMatch blockOctober.text)
        (normalizeForMatch "2014-10-01") = false := by
  refine ⟨by with_unfolding_all rfl, by with_unfolding_all rfl,
    by with_unfolding_all rfl, by with_unfolding_all rfl, by with_unfolding_all rfl⟩

/-! ## Claim C9 — the resolver is a function of blocks and cell content -/

/-- C9: the Citation Resolver is deterministic — its output depends only on
the document's artifact blocks and the cell's citations, value, quote,
reasoning and page; two calls agreeing on those (whatever their
review-state fields) return the same citation. -/
theorem resolver_deterministic (d1 d2 : DocumentFile) (c1 c2 : ExtractionCell)
    (hb : docBlocks d1 = docBlocks d2) (hv : c1.value = c2.value)
    (hq : c1.quote = c2.quote) (hr : c1.reasoning = c2.reasoning)
    (hp : c1.page = c2.page) (hc : c1.citations = c2.citations) :
    resolvePrimaryCitation d1 (some c1) = resolvePrimaryCitation d2 (some c2) := by
  cases c1 with
  | mk v1 cf1 q1 p1 r1 cit1 st1 =>
    cases c2 with
    | mk v2 cf2 q2 p2 r2 cit2 st2 =>
      dsimp only at hv hq hr hp hc
      subst hv; subst hq; subst hr; subst hp; subst hc
      have step1 : resolvePrimaryCitation d1
          (some (ExtractionCell.mk v1 cf1 q1 p1 r1 cit1 st1))
          = resolvePrimaryCitation d1
            (some (ExtractionCell.mk v1 cf2 q1 p1 r1 cit1 st2)) := rfl
      have step2 : resolvePrimaryCitation d1
          (some (ExtractionCell.mk v1 cf2 q1 p1 r1 cit1 st2))
          = resolvePrimaryCitation d2
            (some (ExtractionCell.mk v1 cf2 q1 p1 r1 cit1 st2)) := by
        unfold resolvePrimaryCitation pickBestBlockForCell
        rw [hb]
      exact step1.trans step2

/-- Witness for C9: two cells equal in content but differing in the
`confidence` and `status` review fields resolve identically. -/
theorem resolver_deterministic_witness :
    cellRunA.confidence ≠ cellRunB.confidence ∧
      resolvePrimaryCitation docOctober (some cellRunA)
        = resolvePrimaryCitation docOctober (some cellRunB) :=
  ⟨by decide, resolver_deterministic docOctober docOctober cellRunA cellRunB
    rfl rfl rfl rfl rfl rfl⟩

/-- Lemma: the quote/value probe list is empty exactly when both trims are
empty. -/
theorem cellProbes_nil_iff (c : ExtractionCell) :
    cellProbes (some c) = [] ↔ jsTrim c.quote = "" ∧ jsTrim c.value = "" := by
  simp [cellProbes, List.filter_eq_nil_iff]

/-- Lemma: a block with no citations scores zero. -/
theorem scoreBlock_zero_of_no_citations (b : ArtifactBlock) (probes : List String)
    (pageHint : Option ℚ) (hc : b.citations = []) :
    scoreBlockAgainstCell b probes pageHint = 0 := by
  simp [scoreBlockAgainstCell, hc]

/-- Lemma: `pickBestBlockForCell` returns nothing exactly when the probes
are empty or no block reaches a score of 0.2, and any block it returns is a
maximal scorer at or above 0.2. -/
theorem pickBestBlockForCell_spec (d : DocumentFile) (cell : Option ExtractionCell) :
    (pickBestBlockForCell d cell = none ↔
      cellProbes cell = [] ∨
      ∀ b ∈ docBlocks d, scoreBlockAgainstCell b (cellProbes cell)
          (cell.bind (fun x => x.page)) < 0.2) ∧
    (∀ b, pickBestBlockForCell d cell = some b → b ∈ docBlocks d ∧
      0.2 ≤ scoreBlockAgainstCell b (cellProbes cell) (cell.bind (fun x => x.page)) ∧
      ∀ b2 ∈ docBlocks d,
        scoreBlockAgainstCell b2 (cellProbes cell) (cell.bind (fun x => x.page)) ≤
          scoreBlockAgainstCell b (cellProbes cell) (cell.bind (fun x => x.page))) := by
  simp only [pickBestBlockForCell]
  by_cases hbe : (docBlocks d).isEmpty
  · have hnil : docBlocks d = [] := by
      cases hdb : docBlocks d
      · rfl
      · rw [hdb] at hbe; simp at hbe
    rw [if_pos hbe]
    refine ⟨⟨fun _ => Or.inr (fun b hb => absurd (hnil ▸ hb) (List.not_mem_nil b)),
      fun _ => rfl⟩, fun b hb => Option.noConfusion hb⟩
  · rw [if_neg hbe]
    by_cases hpe : (cellProbes cell).isEmpty
    · have hpnil : cellProbes cell = [] := by
        cases hdp : cellProbes cell
        · rfl
        · rw [hdp] at hpe; simp at hpe
      rw [if_pos hpe]
      exact ⟨⟨fun _ => Or.inl hpnil, fun _ => rfl⟩, fun b hb => Option.noConfusion hb⟩
    · rw [if_neg hpe]
      have hpne : cellProbes cell ≠ [] := by
        intro hnl
        rw [hnl] at hpe
        exact hpe rfl
      obtain ⟨hmem, hge, hall⟩ := bestStep_foldl_spec
        (fun b => scoreBlockAgainstCell b (cellProbes cell) (cell.bind (fun x => x.page)))
        (docBlocks d) ((none : Option ArtifactBlock), 0)
      by_cases hsc : ((docBlocks d).foldl
          (bestStep (fun b => scoreBlockAgainstCell b (cellProbes cell)
            (cell.bind (fun x => x.page)))) ((none : Option ArtifactBlock), 0)).2 ≥ 0.2
      · rcases hmem with heq | ⟨x, hx, heq⟩
        · exfalso
          rw [heq] at hsc
          norm_num at hsc
        · rw [if_pos hsc, heq]
          have hfx : scoreBlockAgainstCell x (cellProbes cell)
              (cell.bind (fun y => y.page)) = ((docBlocks d).foldl
                (bestStep (fun b => scoreBlockAgainstCell b (cellProbes cell)
                  (cell.bind (fun y => y.page)))) ((none : Option ArtifactBlock), 0)).2 := by
            rw [heq]
          refine ⟨iff_of_false (by simp) ?_, ?_⟩
          · rintro (hnlp | hlt)
            · exact hpne hnlp
            · have hltx := hlt x hx
              rw [hfx] at hltx
              exact absurd hsc (not_le.mpr hltx)
          · intro b hb
            obtain rfl : x = b := Option.some_inj.mp hb
            refine ⟨hx, ?_, ?_⟩
            · rw [hfx]; exact hsc
            · intro b2 hb2
              rw [hfx]
              exact hall b2 hb2
      · rw [if_neg hsc]
        push_neg at hsc
        refine ⟨iff_of_true rfl (Or.inr ?_), fun b hb => Option.noConfusion hb⟩
        intro b hb
        exact lt_of_le_of_lt (hall b hb) hsc

/-! ## Claim C10 — the block-fallback contract of the resolver -/

/-- C10: for a cell with no attached citations, the resolver returns `null`
exactly when the block fallback fails — no non-empty quote/value probe, or
no block reaching score 0.2 — and otherwise returns a citation of the
first highest-scoring block. -/
theorem resolve_block_fallback (d : DocumentFile) (c : ExtractionCell)
    (hno : c.citations = none ∨ c.citations = some []) :
    (resolvePrimaryCitation d (some c) = none ↔
      (jsTrim c.quote = "" ∧ jsTrim c.value = "") ∨
      ∀ b ∈ docBlocks d,
        scoreBlockAgainstCell b (cellProbes (some c)) c.page < 0.2) ∧
    (∀ cit, resolvePrimaryCitation d (some c) = some cit →
      ∃ b ∈ docBlocks d, cit ∈ b.citations ∧
        0.2 ≤ scoreBlockAgainstCell b (cellProbes (some c)) c.page ∧
        ∀ b2 ∈ docBlocks d,
          scoreBlockAgainstCell b2 (cellProbes (some c)) c.page ≤
            scoreBlockAgainstCell b (cellProbes (some c)) c.page) := by
  have hdirect : pickPrimaryCitation ((some c).bind (fun x => x.citations)) (some c)
      = none := by
    rcases hno with h | h <;> simp [h, pickPrimaryCitation]
  have hres : resolvePrimaryCitation d (some c)
      = pickPrimaryCitation ((pickBestBlockForCell d (some c)).map
          (fun b => b.citations)) (some c) := by
    unfold resolvePrimaryCitation
    rw [hdirect]
  obtain ⟨hiff, hsome⟩ := pickBestBlockForCell_spec d (some c)
  constructor
  · rw [hres]
    constructor
    · intro hnone
      by_cases hbb : pickBestBlockForCell d (some c) = none
      · rcases hiff.mp hbb with hnl | hfl
        · exact Or.inl ((cellProbes_nil_iff c).mp hnl)
        · exact Or.inr hfl
      · obtain ⟨b, hbb2⟩ := Option.ne_none_iff_exists'.mp hbb
        obtain ⟨hbmem, hbsc, hbmax⟩ := hsome b hbb2
        have hcne : b.citations ≠ [] := by
          intro hnil
          have hz := scoreBlock_zero_of_no_citations b (cellProbes (some c))
            ((some c).bind (fun x => x.page)) hnil
          rw [hz] at hbsc
          norm_num at hbsc
        obtain ⟨cc, hccmem, hcc⟩ := pickPrimaryCitation_mem b.citations (some c) hcne
        rw [hbb2] at hnone
        simp only [Option.map_some'] at hnone
        rw [hcc] at hnone
        cases hnone
    · intro hrhs
      have hbb : pickBestBlockForCell d (some c) = none := by
        apply hiff.mpr
        rcases hrhs with hqv | hlt
        · exact Or.inl ((cellProbes_nil_iff c).mpr hqv)
        · exact Or.inr hlt
      rw [hbb]
      rfl
  · intro cit hcit
    rw [hres] at hcit
    by_cases hbb : pickBestBlockForCell d (some c) = none
    · rw [hbb] at hcit
      cases hcit
    · obtain ⟨b, hbb2⟩ := Option.ne_none_iff_exists'.mp hbb
      obtain ⟨hbmem, hbsc, hbmax⟩ := hsome b hbb2
      rw [hbb2] at hcit
      simp only [Option.map_some'] at hcit
      have hcne : b.citations ≠ [] := by
        intro hnil
        rw [hnil] at hcit
        simp [pickPrimaryCitation] at hcit
      obtain ⟨cc, hccmem, hcc⟩ := pickPrimaryCitation_mem b.citations (some c) hcne
      rw [hcc] at hcit
      obtain rfl : cc = cit := Option.some_inj.mp hcit
      exact ⟨b, hbmem, hccmem, hbsc, hbmax⟩

/-- Witness for C10 on the Scenario-A document and cell. -/
theorem resolve_block_fallback_witness :
    cellIsoDate.citations = none ∧
      (resolvePrimaryCitation docOctober (some cellIsoDate) = none ↔
        (jsTrim cellIsoDate.quote = "" ∧ jsTrim cellIsoDate.value = "") ∨
        ∀ b ∈ docBlocks docOctober,
          scoreBlockAgainstCell b (cellProbes (some cellIsoDate))
              cellIsoDate.page < 0.2) :=
  ⟨rfl, (resolve_block_fallback docOctober cellIsoDate (Or.inl rfl)).1⟩
